import Mathlib

set_option linter.unusedVariables false

/-!
Shallow embedding of the scd4x sensor driver (src/scd4x/__init__.py).

Conventions of the embedding:
* Python bytes are `Nat` values (< 256 where the hypotheses say so);
  Python ints that may be negative are `ℤ`; Python floats are modelled
  by exact rationals `ℚ`.
* The I2C bus is an external collaborator: a transaction is modelled by
  the list of bus operations it performs (`BusOp`) together with its
  result, and the bytes a bus read returns are a parameter.
* `raise` is modelled by `Except.error` with an error taxonomy mirroring
  the exceptions the source raises; `time.sleep` delays only model time
  and do not affect results.
-/

/-- Command code constants from the source module. -/
def SOFT_RESET : Nat := 0x3646

def DATA_READY : Nat := 0xE4B8

def STOP_PERIODIC_MEASUREMENT : Nat := 0x3F86

def READ_MEASUREMENT : Nat := 0xEC05

def SERIAL_NUMBER : Nat := 0x3682

def SET_TEMP_OFFSET : Nat := 0x241D

def DEFAULT_I2C_ADDRESS : Nat := 0x62

/-- Modelled from the spec: the checksum module (`scd4x/crc.py`, imported by
the source as `from scd4x.crc import crc8`) is not present under src/.
Spec §4.1: one inner round of the checksum — if the high bit of the
accumulator is set, shift left and XOR with the polynomial, masking to
8 bits; otherwise shift left, masking to 8 bits. -/
def crc.crcRound (polynomial acc : Nat) : Nat :=
  if acc &&& 0x80 ≠ 0 then ((acc <<< 1) ^^^ polynomial) &&& 0xFF
  else (acc <<< 1) &&& 0xFF

/-- Modelled from the spec: iterate `crcRound` the given number of times
(§4.1 prescribes 8 iterations per input byte). -/
def crc.crcRounds (polynomial : Nat) : Nat → Nat → Nat
  | 0, acc => acc
  | n + 1, acc => crcRounds polynomial n (crc.crcRound polynomial acc)

/-- Modelled from the spec: `checksum(bytes, polynomial) -> byte` of §4.1.
Initialize an 8-bit accumulator to 0; for each input byte, XOR it into the
accumulator, then run 8 rounds of `crcRound`. Deterministic and pure. -/
def crc.crc8 (data : List Nat) (polynomial : Nat) : Nat :=
  data.foldl (fun acc b => crc.crcRounds polynomial 8 (acc ^^^ b)) 0

/-- The argument of the static method `SCD4X.crc8`: either raw bytes or a
Python int (`isinstance(data, int)` branch). -/
inductive CrcArg where
  | bytes (bs : List Nat)
  | int (v : ℤ)

/-- `x.to_bytes(2, "big")` for `x < 2^16`: two bytes, most significant
first. -/
def toBytesBE2 (x : Nat) : List Nat := [x / 256 % 256, x % 256]

/-- `SCD4X.crc8(data, polynomial=0x31)` from the source: an int input is
first masked to 16 bits (`data & 0xFFFF`, Python `&` on a possibly negative
int is the mathematical residue) and encoded as 2 big-endian bytes, then the
checksum of the bytes is computed. -/
def SCD4X.crc8 (data : CrcArg) (polynomial : Nat) : Nat :=
  match data with
  | .int v => crc.crc8 (toBytesBE2 (v.emod 65536).toNat) polynomial
  | .bytes bs => crc.crc8 bs polynomial

/-- `struct.Struct(">H")` packing of a nonnegative int: 2 big-endian bytes,
`struct.error` outside `[0, 2^16)`. -/
def packHNat (v : Nat) : Option (List Nat) :=
  if v < 65536 then some [v / 256, v % 256] else none

/-- `>H` packing of a possibly negative Python int. -/
def packH (v : ℤ) : Option (List Nat) :=
  if 0 ≤ v ∧ v < 65536 then some [v.toNat / 256, v.toNat % 256] else none

/-- `>B` packing of one byte, `struct.error` outside `[0, 2^8)`. -/
def packB (v : Nat) : Option (List Nat) :=
  if v < 256 then some [v] else none

/-- Error taxonomy mirroring the exceptions the source can raise. -/
inductive SCDError where
  /-- `ValueError("ICP10125: Invalid CRC8 in response.")` -/
  | crcError
  /-- `struct.error` from packing an out-of-range field -/
  | structError
  /-- `TypeError` from subscripting / masking a non-sequence result -/
  | typeError
  /-- `IndexError` from reading past the end of the response -/
  | indexError
  /-- `RuntimeError("Timeout waiting for data ready.")` -/
  | timeoutError
  /-- `ValueError("Temperature offset must be <= 374c")` -/
  | validationError
  deriving DecidableEq

/-- `rdwr` returns either a bare decoded word (`data[0]` when the decoded
list has exactly one element) or the list of decoded words. -/
inductive RdwrResult where
  | scalar (v : Nat)
  | list (vs : List Nat)
  deriving DecidableEq

/-- One operation performed on the I2C bus. -/
inductive BusOp where
  | write (address : Nat) (data : List Nat)
  | read (address : Nat) (length : Nat)
  deriving DecidableEq

deriving instance DecidableEq for Except

/-- The response-decoding loop of `SCD4X.rdwr`: walk the response bytes in
consecutive triples `(high, low, checksum)`; recompute the checksum over the
two data bytes and raise on mismatch, otherwise decode
`int.from_bytes([high, low], "big") = high * 256 + low`.  A trailing group
shorter than 3 bytes makes `result[chunk + 2]` raise `IndexError`. -/
def decodeResponse : List Nat → Except SCDError (List Nat)
  | [] => .ok []
  | h :: l :: c :: rest =>
    if SCD4X.crc8 (.bytes [h, l]) 0x31 ≠ c then .error .crcError
    else match decodeResponse rest with
      | .error e => .error e
      | .ok ds => .ok ((h * 256 + l) :: ds)
  | _ :: _ => .error .indexError

/-- The result-shape policy of `SCD4X.rdwr`: `data[0]` when the decoded list
has exactly one element, otherwise the list itself. -/
def shapeResult : List Nat → RdwrResult
  | [d] => .scalar d
  | ds => .list ds

/-- `SCD4X.rdwr(command, value, response_length, delay)` from the source.
The frame is `>HHB`-packed `(command, value, crc8(value))` when a value is
present, else `>H`-packed `command`; it is written to the bus, then after
the delay `response_length * 3` bytes are read (when positive) and decoded.
`response` models the bytes the bus read returns; `delay` only models time.
Returns the list of bus operations performed together with the result. -/
def SCD4X.rdwr (address command : Nat) (value : Option ℤ) (response_length : Nat)
    (delay : Nat) (response : List Nat) :
    List BusOp × Except SCDError RdwrResult :=
  let frame? : Option (List Nat) :=
    match value with
    | some v => do
        let cb ← packHNat command
        let vb ← packH v
        let xb ← packB (SCD4X.crc8 (.int v) 0x31)
        pure (cb ++ vb ++ xb)
    | none => packHNat command
  match frame? with
  | none => ([], .error .structError)
  | some frame =>
    let len := response_length * 3
    if 0 < len then
      match decodeResponse response with
      | .error e => ([.write address frame, .read address len], .error e)
      | .ok data => ([.write address frame, .read address len], .ok (shapeResult data))
    else
      ([.write address frame], .ok (.list []))

/-- `SCD4X.data_ready` from the source: a 1-word `DATA_READY` transaction
with a 1 ms delay; the returned int is `response & 0x07FF` (truthy iff
nonzero).  Masking a list result would raise `TypeError`. -/
def SCD4X.data_ready (address : Nat) (response : List Nat) :
    List BusOp × Except SCDError Nat :=
  match SCD4X.rdwr address DATA_READY none 1 1 response with
  | (tr, .ok (.scalar v)) => (tr, .ok (v &&& 0x7FF))
  | (tr, .ok (.list _)) => (tr, .error .typeError)
  | (tr, .error e) => (tr, .error e)

/-- The mutable fields of an `SCD4X` object that the claims concern. -/
structure SCD4X where
  co2 : Nat
  temperature : ℚ
  relative_humidity : ℚ
  address : Nat
  deriving DecidableEq

/-- The field assignments of `SCD4X.__init__`: the three reading fields are
set to 0 and the address defaults to `DEFAULT_I2C_ADDRESS`.  (`__init__`
additionally issues stop-periodic-measurement and reads the serial number;
neither assigns any of these fields.) -/
def SCD4X.init (address : Option Nat) : SCD4X :=
  { co2 := 0, temperature := 0, relative_humidity := 0,
    address := address.getD DEFAULT_I2C_ADDRESS }

/-- The tail of `SCD4X.measure` after the polling loop: a 3-word
`READ_MEASUREMENT` transaction, then the field assignments
`co2 = response[0]`, `temperature = -45 + 175.0 * response[1] / 2^16`,
`relative_humidity = 100.0 * response[2] / 2^16` and the return of the
updated triple.  Failing subscripts after a partial assignment leave the
partially updated state, mirroring Python's in-place mutation. -/
def SCD4X.readMeasurementUpdate (measResponse : List Nat) (s : SCD4X) :
    Except SCDError (Nat × ℚ × ℚ) × SCD4X :=
  match (SCD4X.rdwr s.address READ_MEASUREMENT none 3 1 measResponse).2 with
  | .error e => (.error e, s)
  | .ok (.scalar _) => (.error .typeError, s)
  | .ok (.list []) => (.error .indexError, s)
  | .ok (.list [a]) => (.error .indexError, { s with co2 := a })
  | .ok (.list [a, b]) => (.error .indexError,
      { s with co2 := a, temperature := -45 + 175 * (b : ℚ) / 65536 })
  | .ok (.list (a :: b :: c :: _)) =>
      (.ok (a, -45 + 175 * (b : ℚ) / 65536, 100 * (c : ℚ) / 65536),
       { s with co2 := a,
                temperature := -45 + 175 * (b : ℚ) / 65536,
                relative_humidity := 100 * (c : ℚ) / 65536 })

/-- The polling loop of `SCD4X.measure`, fuel-indexed.  Iteration `i` calls
`data_ready` (its response bytes are `drResponses i`); a truthy (nonzero)
masked word exits the loop into `readMeasurementUpdate`; otherwise a
non-blocking call returns `None` at once, and a blocking call raises
`RuntimeError` when `time.perf_counter() - t_start` — modelled by
`elapsed i`, the elapsed wall time at the check of iteration `i` — exceeds
`timeout`, else sleeps 0.1 s and repeats.  `none` means the fuel ran out
while the loop was still running; the final state is returned alongside the
outcome, since a raise leaves the object as it was. -/
def SCD4X.measureAux (drResponses : Nat → List Nat) (elapsed : Nat → ℚ)
    (measResponse : List Nat) (blocking : Bool) (timeout : ℚ) :
    Nat → Nat → SCD4X → Option (Except SCDError (Option (Nat × ℚ × ℚ)) × SCD4X)
  | 0, _, _ => none
  | fuel + 1, i, s =>
    match (SCD4X.data_ready s.address (drResponses i)).2 with
    | .error e => some (.error e, s)
    | .ok v =>
      if v ≠ 0 then
        match SCD4X.readMeasurementUpdate measResponse s with
        | (.error e, s') => some (.error e, s')
        | (.ok r, s') => some (.ok (some r), s')
      else if !blocking then
        some (.ok none, s)
      else if timeout < elapsed i then
        some (.error .timeoutError, s)
      else
        SCD4X.measureAux drResponses elapsed measResponse blocking timeout fuel (i + 1) s

/-- `SCD4X.measure(blocking, timeout)` from the source: run the polling loop
from iteration 0 on the current state. -/
def SCD4X.measure (drResponses : Nat → List Nat) (elapsed : Nat → ℚ)
    (measResponse : List Nat) (blocking : Bool) (timeout : ℚ) (fuel : Nat)
    (s : SCD4X) : Option (Except SCDError (Option (Nat × ℚ × ℚ)) × SCD4X) :=
  SCD4X.measureAux drResponses elapsed measResponse blocking timeout fuel 0 s

/-- Python `int()` applied to a float/rational: truncation toward zero. -/
def intTrunc (q : ℚ) : ℤ := if q < 0 then ⌈q⌉ else ⌊q⌋

/-- `SCD4X.set_temperature_offset(temperature_offset)` from the source:
inputs above 374 raise `ValueError` before any bus activity; otherwise the
offset is encoded as `int(temperature_offset * (1 << 16) / 175)` and sent as
the value of a no-response `SET_TEMP_OFFSET` transaction. -/
def SCD4X.set_temperature_offset (address : Nat) (temperature_offset : ℚ) :
    List BusOp × Except SCDError RdwrResult :=
  if temperature_offset > 374 then ([], .error .validationError)
  else
    let offset := intTrunc (temperature_offset * 65536 / 175)
    SCD4X.rdwr address SET_TEMP_OFFSET (some offset) 0 0 []

/-- Follows the spec's words, for comparison with the source's encoding
(§4.3): "encode as `round(celsius * 65536 / 175)` and send as the
argument". -/
def specTempOffsetEncode (celsius : ℚ) : ℤ := round (celsius * 65536 / 175)

/-- Regroup a list of byte triples `(high, low, checksum)` into the flat
byte string the bus read returns. -/
def flattenTriples : List (Nat × Nat × Nat) → List Nat
  | [] => []
  | (h, l, c) :: ts => h :: l :: c :: flattenTriples ts

/-! ## Helper lemmas -/

/-- Each checksum round masks the accumulator to 8 bits. -/
theorem crc.crcRound_lt (p a : Nat) : crc.crcRound p a < 256 := by
  unfold crc.crcRound
  split
  · exact Nat.lt_succ_of_le (Nat.and_le_right)
  · exact Nat.lt_succ_of_le (Nat.and_le_right)

/-- After at least one round the accumulator is a byte. -/
theorem crc.crcRounds_lt (p : Nat) : ∀ n a, 0 < n → crc.crcRounds p n a < 256 := by
  intro n
  induction n with
  | zero => intro a h; omega
  | succ m ih =>
    intro a _
    cases m with
    | zero => simpa [crc.crcRounds] using crc.crcRound_lt p a
    | succ m2 =>
      have := ih (crc.crcRound p a) (Nat.succ_pos m2)
      simpa [crc.crcRounds] using this

theorem crc.foldl_lt (p : Nat) (l : List Nat) : ∀ acc : Nat, l ≠ [] →
    List.foldl (fun a b => crc.crcRounds p 8 (a ^^^ b)) acc l < 256 := by
  induction l with
  | nil => intro acc h; exact absurd rfl h
  | cons b bs ih =>
    intro acc _
    cases bs with
    | nil => simpa [List.foldl] using crc.crcRounds_lt p 8 (acc ^^^ b) (by norm_num)
    | cons b2 bs2 =>
      simpa [List.foldl] using ih (crc.crcRounds p 8 (acc ^^^ b)) (by simp)

/-- The checksum of a nonempty byte string is a byte. -/
theorem crc.crc8_lt (p : Nat) (b : Nat) (bs : List Nat) : crc.crc8 (b :: bs) p < 256 :=
  crc.foldl_lt p (b :: bs) 0 (by simp)

/-- The checksum of an int argument is a byte. -/
theorem SCD4X.crc8_int_lt (v : ℤ) (p : Nat) : SCD4X.crc8 (.int v) p < 256 :=
  crc.crc8_lt p _ _

/-- A decoded list that is not a singleton is returned as a list. -/
theorem shapeResult_eq_list : ∀ ds : List Nat, ds.length ≠ 1 → shapeResult ds = .list ds
  | [], _ => rfl
  | [_], h => absurd rfl h
  | _ :: _ :: _, _ => rfl

/-- Evaluation of the response-decoding loop on a string of triples: it
succeeds with the big-endian decodings exactly when every triple's checksum
matches, and raises the CRC error otherwise. -/
theorem decodeResponse_flatten (ts : List (Nat × Nat × Nat)) :
    decodeResponse (flattenTriples ts) =
      if ∀ t ∈ ts, SCD4X.crc8 (.bytes [t.1, t.2.1]) 0x31 = t.2.2
      then .ok (ts.map fun t => t.1 * 256 + t.2.1)
      else .error .crcError := by
  induction ts with
  | nil => simp [flattenTriples, decodeResponse]
  | cons t ts ih =>
    obtain ⟨h, l, c⟩ := t
    by_cases hv : SCD4X.crc8 (.bytes [h, l]) 0x31 = c
    · by_cases hrest : ∀ t ∈ ts, SCD4X.crc8 (.bytes [t.1, t.2.1]) 0x31 = t.2.2
      · have hall : ∀ t ∈ (h, l, c) :: ts, SCD4X.crc8 (.bytes [t.1, t.2.1]) 0x31 = t.2.2 := by
          intro t ht
          rcases List.mem_cons.1 ht with rfl | ht2
          · exact hv
          · exact hrest t ht2
        simp [flattenTriples, decodeResponse, ih, if_pos hrest, if_pos hall, hv]
      · have hnall : ¬ ∀ t ∈ (h, l, c) :: ts, SCD4X.crc8 (.bytes [t.1, t.2.1]) 0x31 = t.2.2 :=
          fun hc => hrest fun t ht => hc t (List.mem_cons_of_mem _ ht)
        simp [flattenTriples, decodeResponse, ih, if_neg hrest, if_neg hnall, hv]
    · simp [flattenTriples, decodeResponse, hv]

/-- Evaluation of `rdwr` for an argumentless command: the frame is the two
big-endian command bytes, and the response bytes are decoded when a response
is expected. -/
theorem SCD4X.rdwr_none_eval (address command rl delay : Nat) (response : List Nat)
    (hcmd : command < 65536) :
    SCD4X.rdwr address command none rl delay response =
      if 0 < rl then
        match decodeResponse response with
        | .error e =>
            ([.write address [command / 256, command % 256], .read address (rl * 3)], .error e)
        | .ok data =>
            ([.write address [command / 256, command % 256], .read address (rl * 3)],
             .ok (shapeResult data))
      else ([.write address [command / 256, command % 256]], .ok (.list [])) := by
  unfold SCD4X.rdwr
  simp only [packHNat, if_pos hcmd]
  have h3 : (0 < rl * 3) = (0 < rl) := by
    apply propext; omega
  cases hrl : decide (0 < rl) with
  | true =>
    have hp : 0 < rl := of_decide_eq_true hrl
    simp only [h3, if_pos hp]
  | false =>
    have hp : ¬ 0 < rl := of_decide_eq_false hrl
    simp only [h3, if_neg hp]

/-! ## Claim theorems -/

/-- C1: for every response read by `rdwr`, the bytes are grouped into
consecutive triples (high, low, checksum); each triple's checksum is
recomputed over the two data bytes, a mismatch raises the CRC error instead
of silently continuing, and every validating triple is decoded as an
unsigned 16-bit big-endian integer. -/
theorem rdwr_response_crc (address command rl delay : Nat)
    (ts : List (Nat × Nat × Nat))
    (hcmd : command < 65536) (hlen : ts.length = rl)
    (hbytes : ∀ t ∈ ts, t.1 < 256 ∧ t.2.1 < 256 ∧ t.2.2 < 256) :
    (SCD4X.rdwr address command none rl delay (flattenTriples ts)).2 =
      if ∀ t ∈ ts, SCD4X.crc8 (.bytes [t.1, t.2.1]) 0x31 = t.2.2
      then .ok (shapeResult (ts.map fun t => t.1 * 256 + t.2.1))
      else .error .crcError := by
  subst hlen
  rw [SCD4X.rdwr_none_eval address command ts.length delay (flattenTriples ts) hcmd]
  cases ts with
  | nil => simp [flattenTriples, decodeResponse, shapeResult]
  | cons t ts2 =>
    have hpos : 0 < (t :: ts2).length := by simp
    rw [if_pos hpos, decodeResponse_flatten]
    by_cases hall : ∀ x ∈ t :: ts2, SCD4X.crc8 (.bytes [x.1, x.2.1]) 0x31 = x.2.2
    · rw [if_pos hall, if_pos hall]
    · rw [if_neg hall, if_neg hall]

/-- C1 witness: a corrupted triple (the datasheet sample pair 0xBE 0xEF with
a wrong checksum byte) raises the CRC error, and the same pair with its
correct checksum 19 decodes to the big-endian word. -/
theorem rdwr_response_crc_witness :
    (SCD4X.rdwr 0x62 0xEC05 none 1 1 (flattenTriples [(0xBE, 0xEF, 0x92)])).2 =
        .error .crcError ∧
    (SCD4X.rdwr 0x62 0xEC05 none 1 1 (flattenTriples [(0xBE, 0xEF, 19)])).2 =
        .ok (shapeResult [0xBE * 256 + 0xEF]) := by
  constructor
  · rw [rdwr_response_crc 0x62 0xEC05 1 1 [(0xBE, 0xEF, 0x92)] (by norm_num) (by decide)
      (by decide)]
    decide
  · rw [rdwr_response_crc 0x62 0xEC05 1 1 [(0xBE, 0xEF, 19)] (by norm_num) (by decide)
      (by decide)]
    decide

/-- C2: the result-shape policy of `rdwr` — exactly one expected word is
returned unwrapped as a scalar, several expected words are returned as the
ordered sequence of decoded words, and zero expected words give an empty
result. -/
theorem rdwr_result_shape (address command rl delay : Nat)
    (ts : List (Nat × Nat × Nat))
    (hcmd : command < 65536) (hlen : ts.length = rl)
    (hvalid : ∀ t ∈ ts, SCD4X.crc8 (.bytes [t.1, t.2.1]) 0x31 = t.2.2) :
    (rl = 0 →
      (SCD4X.rdwr address command none rl delay (flattenTriples ts)).2 = .ok (.list [])) ∧
    (∀ w, ts = [w] →
      (SCD4X.rdwr address command none rl delay (flattenTriples ts)).2 =
        .ok (.scalar (w.1 * 256 + w.2.1))) ∧
    (2 ≤ rl →
      (SCD4X.rdwr address command none rl delay (flattenTriples ts)).2 =
        .ok (.list (ts.map fun t => t.1 * 256 + t.2.1))) := by
  subst hlen
  rw [SCD4X.rdwr_none_eval address command ts.length delay (flattenTriples ts) hcmd,
    decodeResponse_flatten, if_pos hvalid]
  refine ⟨fun h0 => ?_, fun w hw => ?_, fun h2 => ?_⟩
  · rw [List.length_eq_zero] at h0
    subst h0
    simp
  · subst hw
    simp [shapeResult]
  · rw [if_pos (by omega)]
    simp [shapeResult_eq_list (ts.map fun t => t.1 * 256 + t.2.1) (by simp; omega)]

/-- C2 witness: a two-word response comes back as the ordered list, a
one-word response comes back as a bare scalar, and a zero-word transaction
returns the empty list. -/
theorem rdwr_result_shape_witness :
    (SCD4X.rdwr 0x62 0x3682 none 2 1
        (flattenTriples [(0x12, 0x34, 182), (0x56, 0x78, 252)])).2 =
      .ok (.list [0x12 * 256 + 0x34, 0x56 * 256 + 0x78]) ∧
    (SCD4X.rdwr 0x62 0xEC05 none 1 1 (flattenTriples [(0x01, 0xF4, 178)])).2 =
      .ok (.scalar (0x01 * 256 + 0xF4)) ∧
    (SCD4X.rdwr 0x62 0x3F86 none 0 500 (flattenTriples [])).2 = .ok (.list []) := by
  refine ⟨?_, ?_, ?_⟩
  · have h := (rdwr_result_shape 0x62 0x3682 2 1 [(0x12, 0x34, 182), (0x56, 0x78, 252)]
      (by norm_num) (by decide) (by decide)).2.2 (by norm_num)
    rw [h]
    decide
  · exact (rdwr_result_shape 0x62 0xEC05 1 1 [(0x01, 0xF4, 178)]
      (by norm_num) (by decide) (by decide)).2.1 (0x01, 0xF4, 178) rfl
  · exact (rdwr_result_shape 0x62 0x3F86 0 500 [] (by norm_num) (by decide)
      (by decide)).1 rfl

/-- C3: the outgoing frame built by `rdwr` is the 2-byte big-endian command
alone when no argument is present, and otherwise the 2-byte big-endian
command, the 2-byte big-endian argument, and one checksum byte computed over
the argument's two big-endian bytes, the int input to the checksum being
first masked to 16 bits and encoded most-significant byte first. -/
theorem rdwr_frame_layout (address command rl delay : Nat) (v : ℤ)
    (response : List Nat)
    (hcmd : command < 65536) (hv0 : 0 ≤ v) (hv1 : v < 65536) :
    (SCD4X.rdwr address command none rl delay response).1.head? =
      some (.write address [command / 256, command % 256]) ∧
    (SCD4X.rdwr address command (some v) rl delay response).1.head? =
      some (.write address
        ([command / 256, command % 256] ++ [v.toNat / 256, v.toNat % 256] ++
          [SCD4X.crc8 (.int v) 0x31])) ∧
    SCD4X.crc8 (.int v) 0x31 = crc.crc8 (toBytesBE2 (v.emod 65536).toNat) 0x31 := by
  refine ⟨?_, ?_, rfl⟩
  · rw [SCD4X.rdwr_none_eval address command rl delay response hcmd]
    split
    · cases hdec : decodeResponse response <;> simp [hdec]
    · simp
  · unfold SCD4X.rdwr
    have hcb : packHNat command = some [command / 256, command % 256] := by
      simp [packHNat, if_pos hcmd]
    have hvb : packH v = some [v.toNat / 256, v.toNat % 256] := by
      simp [packH, hv0, hv1]
    have hxb : packB (SCD4X.crc8 (.int v) 0x31) = some [SCD4X.crc8 (.int v) 0x31] := by
      simp [packB, if_pos (SCD4X.crc8_int_lt v 0x31)]
    simp only [hcb, hvb, hxb, Option.bind_eq_bind, Option.some_bind]
    split
    · cases hdec : decodeResponse response <;> simp [hdec]
    · simp

/-- C3 witness: the set-pressure command 0xE000 with argument 1000
(= 0x03E8) produces the 5-byte frame ending in the checksum of the two
argument bytes, and the bare stop command 0x3F86 produces just its two
bytes. -/
theorem rdwr_frame_layout_witness :
    (SCD4X.rdwr 0x62 0xE000 none 0 0 []).1.head? =
      some (.write 0x62 [0xE000 / 256, 0xE000 % 256]) ∧
    (SCD4X.rdwr 0x62 0xE000 (some 1000) 0 0 []).1.head? =
      some (.write 0x62
        ([0xE000 / 256, 0xE000 % 256] ++ [(1000 : ℤ).toNat / 256, (1000 : ℤ).toNat % 256] ++
          [SCD4X.crc8 (.int 1000) 0x31])) ∧
    SCD4X.crc8 (.int 1000) 0x31 = crc.crc8 (toBytesBE2 ((1000 : ℤ).emod 65536).toNat) 0x31 :=
  rdwr_frame_layout 0x62 0xE000 0 0 1000 [] (by norm_num) (by norm_num) (by norm_num)

/-- C4: `set_temperature_offset` rejects every input above 374 with the
validation error before performing any bus operation (the trace is empty),
and never raises the validation error for inputs at most 374. -/
theorem set_temperature_offset_validation (address : Nat) (celsius : ℚ) :
    (374 < celsius →
      SCD4X.set_temperature_offset address celsius = ([], .error .validationError)) ∧
    (celsius ≤ 374 →
      (SCD4X.set_temperature_offset address celsius).2 ≠ .error .validationError) := by
  constructor
  · intro hgt
    simp [SCD4X.set_temperature_offset, hgt]
  · intro hle
    simp only [SCD4X.set_temperature_offset, if_neg (not_lt.2 hle), SCD4X.rdwr]
    split
    · simp
    · simp

/-- C4 witness: the input 375 is rejected with the validation error and no
bus operation, while 374 is not rejected by validation. -/
theorem set_temperature_offset_validation_witness :
    SCD4X.set_temperature_offset 0x62 375 = ([], .error .validationError) ∧
    (SCD4X.set_temperature_offset 0x62 374).2 ≠ .error .validationError :=
  ⟨(set_temperature_offset_validation 0x62 375).1 (by norm_num),
   (set_temperature_offset_validation 0x62 374).2 (le_refl 374)⟩

/-- C5 counterexample: at celsius = 2 the source truncates
`2 * 65536 / 175 = 748.98…` to 748 and sends 748 (frame bytes 0x02 0xEC
with checksum 101), while the claimed encoding `round(2 * 65536 / 175)`
is 749. -/
theorem set_temperature_offset_round_cex :
    SCD4X.set_temperature_offset 0x62 2 =
      ([.write 0x62 [0x24, 0x1D, 0x02, 0xEC, 101]], .ok (.list [])) ∧
    specTempOffsetEncode 2 = 749 ∧
    intTrunc (2 * 65536 / 175) = 748 ∧ (748 : ℤ) ≠ 749  := by
  have he : intTrunc (2 * 65536 / 175) = 748 := by
    rw [intTrunc, if_neg (by norm_num)]
    norm_num
  refine ⟨?_, ?_, he, by decide⟩
  · rw [SCD4X.set_temperature_offset, if_neg (by norm_num)]
    simp only [he]
    decide
  · rw [specTempOffsetEncode, round_eq]
    norm_num

/-- C5 (amended): for every accepted input (celsius ≤ 374) whose encoding is
in 16-bit range, `set_temperature_offset` encodes the offset as the
truncation toward zero `int(celsius * 65536 / 175)` — not the rounding —
and sends that value as the 16-bit argument of the set-temperature-offset
transaction. -/
theorem set_temperature_offset_trunc_encode (address : Nat) (celsius : ℚ)
    (hle : celsius ≤ 374)
    (h0 : 0 ≤ intTrunc (celsius * 65536 / 175))
    (h1 : intTrunc (celsius * 65536 / 175) < 65536) :
    SCD4X.set_temperature_offset address celsius =
      ([.write address
          ([0x24, 0x1D] ++
            [(intTrunc (celsius * 65536 / 175)).toNat / 256,
             (intTrunc (celsius * 65536 / 175)).toNat % 256] ++
            [SCD4X.crc8 (.int (intTrunc (celsius * 65536 / 175))) 0x31])],
       .ok (.list [])) := by
  simp only [SCD4X.set_temperature_offset, if_neg (not_lt.2 hle), SCD4X.rdwr]
  have hcb : packHNat SET_TEMP_OFFSET = some [0x24, 0x1D] := by decide
  have hvb : packH (intTrunc (celsius * 65536 / 175)) =
      some [(intTrunc (celsius * 65536 / 175)).toNat / 256,
            (intTrunc (celsius * 65536 / 175)).toNat % 256] := by
    simp [packH, h0, h1]
  have hxb : packB (SCD4X.crc8 (.int (intTrunc (celsius * 65536 / 175))) 0x31) =
      some [SCD4X.crc8 (.int (intTrunc (celsius * 65536 / 175))) 0x31] := by
    simp [packB, if_pos (SCD4X.crc8_int_lt (intTrunc (celsius * 65536 / 175)) 0x31)]
  simp [hcb, hvb, hxb]

/-- C5 witness: celsius = 1 is accepted and encodes to
`int(65536 / 175) = 374`, sent as the transaction argument. -/
theorem set_temperature_offset_trunc_encode_witness :
    SCD4X.set_temperature_offset 0x62 1 =
      ([.write 0x62
          ([0x24, 0x1D] ++
            [(intTrunc (1 * 65536 / 175)).toNat / 256,
             (intTrunc (1 * 65536 / 175)).toNat % 256] ++
            [SCD4X.crc8 (.int (intTrunc (1 * 65536 / 175))) 0x31])],
       .ok (.list [])) := by
  have he : intTrunc (1 * 65536 / 175) = 374 := by
    rw [intTrunc, if_neg (by norm_num)]
    norm_num
  exact set_temperature_offset_trunc_encode 0x62 1 (by norm_num) (by rw [he]; norm_num)
    (by rw [he]; norm_num)

/-- C6: `data_ready` issues a 1-word-response transaction (a 2-byte command
write followed by a 3-byte read) and reports readiness by masking the low
11 bits of the response word: its truthy result is nonzero if and only if
the response word ANDed with 0x07FF is nonzero. -/
theorem data_ready_low11_mask (address h l c : Nat)
    (hb : h < 256 ∧ l < 256 ∧ c < 256)
    (hcrc : SCD4X.crc8 (.bytes [h, l]) 0x31 = c) :
    SCD4X.data_ready address [h, l, c] =
      ([.write address [0xE4, 0xB8], .read address 3], .ok ((h * 256 + l) &&& 0x7FF)) ∧
    ∀ v, (SCD4X.data_ready address [h, l, c]).2 = .ok v →
      (v ≠ 0 ↔ (h * 256 + l) &&& 0x7FF ≠ 0) := by
  have hrdwr : SCD4X.rdwr address DATA_READY none 1 1 [h, l, c] =
      ([.write address [0xE4, 0xB8], .read address 3], .ok (.scalar (h * 256 + l))) := by
    have hd : decodeResponse [h, l, c] = .ok [h * 256 + l] := by
      simp [decodeResponse, hcrc]
    rw [SCD4X.rdwr_none_eval address DATA_READY 1 1 [h, l, c] (by decide),
      if_pos (by norm_num), hd]
    simp [shapeResult, DATA_READY]
  constructor
  · rw [SCD4X.data_ready, hrdwr]
  · intro v hv
    rw [SCD4X.data_ready, hrdwr] at hv
    simp only at hv
    cases hv
    rfl

/-- C6 witness: the valid triple (0x00, 0x01, 49) decodes to word 1, whose
low 11 bits are nonzero, so the sensor reports ready; the full transaction
trace is the command write then the 3-byte read. -/
theorem data_ready_low11_mask_witness :
    SCD4X.data_ready 0x62 [0, 1, 49] =
      ([.write 0x62 [0xE4, 0xB8], .read 0x62 3], .ok ((0 * 256 + 1) &&& 0x7FF)) ∧
    ∀ v, (SCD4X.data_ready 0x62 [0, 1, 49]).2 = .ok v →
      (v ≠ 0 ↔ (0 * 256 + 1) &&& 0x7FF ≠ 0) :=
  data_ready_low11_mask 0x62 0 1 49 (by norm_num) (by decide)

/-- A non-blocking `measure` whose data-ready check at iteration `i` reports
not ready returns `None` at once with the state untouched. -/
theorem SCD4X.measureAux_nonblocking (dr : Nat → List Nat) (e : Nat → ℚ)
    (mr : List Nat) (t : ℚ) (fuel i : Nat) (s : SCD4X)
    (h0 : (SCD4X.data_ready s.address (dr i)).2 = .ok 0) :
    SCD4X.measureAux dr e mr false t (fuel + 1) i s = some (.ok none, s) := by
  simp [SCD4X.measureAux, h0]

/-- A blocking `measure` that never sees data ready raises the timeout error
as soon as an iteration's elapsed time exceeds the timeout. -/
theorem SCD4X.measureAux_timeout (dr : Nat → List Nat) (e : Nat → ℚ)
    (mr : List Nat) (t : ℚ) (s : SCD4X) (k : Nat)
    (hnr : ∀ j, (SCD4X.data_ready s.address (dr j)).2 = .ok 0)
    (hmono : ∀ i j, i ≤ j → e i ≤ e j)
    (hk : t < e k) :
    ∀ fuel i, i ≤ k → k - i < fuel →
      SCD4X.measureAux dr e mr true t fuel i s = some (.error .timeoutError, s) := by
  intro fuel
  induction fuel with
  | zero => intro i hik hf; omega
  | succ n ih =>
    intro i hik hf
    by_cases hei : t < e i
    · simp [SCD4X.measureAux, hnr i, hei]
    · have hik2 : i < k := by
        rcases eq_or_lt_of_le hik with rfl | hlt
        · exact absurd hk hei
        · exact hlt
      have hrec := ih (i + 1) (by omega) (by omega)
      simp [SCD4X.measureAux, hnr i, hei, hrec]

/-- C7: when `measure` is called with blocking = false and the data-ready
check reports not ready, it returns immediately with no reading produced
and without raising any error, leaving the state as it was. -/
theorem measure_nonblocking_no_reading (dr : Nat → List Nat) (e : Nat → ℚ)
    (mr : List Nat) (t : ℚ) (fuel : Nat) (s : SCD4X)
    (h0 : (SCD4X.data_ready s.address (dr 0)).2 = .ok 0) :
    SCD4X.measure dr e mr false t (fuel + 1) s = some (.ok none, s) := by
  rw [SCD4X.measure]
  exact SCD4X.measureAux_nonblocking dr e mr t fuel 0 s h0

/-- C7 witness: with a not-ready response word 0x0800 (low 11 bits zero) a
non-blocking `measure` on a fresh handle returns no reading and no error. -/
theorem measure_nonblocking_no_reading_witness :
    SCD4X.measure (fun _ => [8, 0, 55]) (fun _ => 1) [] false 0 1 (SCD4X.init none) =
      some (.ok none, SCD4X.init none) :=
  measure_nonblocking_no_reading (fun _ => [8, 0, 55]) (fun _ => 1) [] 0 0
    (SCD4X.init none) (by decide)

/-- C8: when `measure` is called with blocking = true and data never becomes
ready, it fails with the timeout error once the elapsed wall time exceeds
the caller-supplied timeout; with timeout 0 this happens at the very first
iteration, so the call fails promptly instead of hanging. -/
theorem measure_blocking_timeout (dr : Nat → List Nat) (e : Nat → ℚ)
    (mr : List Nat) (t : ℚ) (s : SCD4X) (k fuel : Nat)
    (hnr : ∀ j, (SCD4X.data_ready s.address (dr j)).2 = .ok 0)
    (hmono : ∀ i j, i ≤ j → e i ≤ e j)
    (hk : t < e k) (hfuel : k < fuel) :
    SCD4X.measure dr e mr true t fuel s = some (.error .timeoutError, s) := by
  rw [SCD4X.measure]
  exact SCD4X.measureAux_timeout dr e mr t s k hnr hmono hk fuel 0 (Nat.zero_le k)
    (by omega)

/-- C8 witness: with data never ready and timeout 0, the first iteration's
positive elapsed time already exceeds the timeout, so one loop iteration
suffices to raise the timeout error. -/
theorem measure_blocking_timeout_witness :
    SCD4X.measure (fun _ => [8, 0, 55]) (fun _ => 1) [] true 0 1 (SCD4X.init none) =
      some (.error .timeoutError, SCD4X.init none) := by
  have hdr : (SCD4X.data_ready (SCD4X.init none).address [8, 0, 55]).2 = .ok 0 := by
    decide
  exact measure_blocking_timeout (fun _ => [8, 0, 55]) (fun _ => 1) [] 0
    (SCD4X.init none) 0 1 (fun _ => hdr) (fun i j _ => le_refl 1) (by norm_num)
    (by norm_num)

/-- C10: a non-blocking `measure` call that finds data not ready leaves
every field of the handle (co2, temperature, relative_humidity, address)
exactly as it was before the call. -/
theorem measure_nonblocking_state_frame (dr : Nat → List Nat) (e : Nat → ℚ)
    (mr : List Nat) (t : ℚ) (fuel : Nat) (s : SCD4X)
    (out : Except SCDError (Option (Nat × ℚ × ℚ))) (st : SCD4X)
    (h0 : (SCD4X.data_ready s.address (dr 0)).2 = .ok 0)
    (hrun : SCD4X.measure dr e mr false t (fuel + 1) s = some (out, st)) :
    st.co2 = s.co2 ∧ st.temperature = s.temperature ∧
      st.relative_humidity = s.relative_humidity ∧ st.address = s.address := by
  rw [SCD4X.measure, SCD4X.measureAux_nonblocking dr e mr t fuel 0 s h0] at hrun
  injection hrun with h
  injection h with h1 h2
  subst h2
  exact ⟨rfl, rfl, rfl, rfl⟩

/-- C10 witness: a concrete not-ready non-blocking call on a fresh handle
ends with all fields equal to their values before the call. -/
theorem measure_nonblocking_state_frame_witness :
    (SCD4X.init none).co2 = (SCD4X.init none).co2 ∧
    (SCD4X.init none).temperature = (SCD4X.init none).temperature ∧
    (SCD4X.init none).relative_humidity = (SCD4X.init none).relative_humidity ∧
    (SCD4X.init none).address = (SCD4X.init none).address :=
  measure_nonblocking_state_frame (fun _ => [8, 0, 55]) (fun _ => 1) [] 0 0
    (SCD4X.init none) (.ok none) (SCD4X.init none) (by decide) (by decide)

/-- C9 counterexample: contrary to the claim that the last-reading cache is
None/absent until the first successful measure, a freshly constructed handle
already presents the default zero values for all three reading fields —
`__init__` assigns co2 = 0, temperature = 0, relative_humidity = 0 before
any measurement is taken. -/
theorem init_presents_zero_defaults :
    (SCD4X.init none).co2 = 0 ∧ (SCD4X.init none).temperature = 0 ∧
      (SCD4X.init none).relative_humidity = 0 :=
  ⟨rfl, rfl, rfl⟩

/-- C9 (amended): a fresh handle presents the constructor defaults
co2 = 0, temperature = 0, relative_humidity = 0 before the first successful
measure (rather than an absent cache); a `measure` call that produces no
reading leaves the state exactly as it was; and any reading a `measure`
call produces comes from a data-ready check that returned a nonzero masked
word followed by the read-measurement update of the state. -/
theorem reading_cache_invariant (dr : Nat → List Nat) (e : Nat → ℚ)
    (mr : List Nat) (b : Bool) (t : ℚ) :
    ((SCD4X.init none).co2 = 0 ∧ (SCD4X.init none).temperature = 0 ∧
      (SCD4X.init none).relative_humidity = 0) ∧
    (∀ fuel i s st, SCD4X.measureAux dr e mr b t fuel i s = some (.ok none, st) →
      st = s) ∧
    (∀ fuel i s r st, SCD4X.measureAux dr e mr b t fuel i s = some (.ok (some r), st) →
      ∃ j v, (SCD4X.data_ready s.address (dr j)).2 = .ok v ∧ v ≠ 0 ∧
        SCD4X.readMeasurementUpdate mr s = (.ok r, st)) := by
  refine ⟨⟨rfl, rfl, rfl⟩, ?_, ?_⟩
  · intro fuel
    induction fuel with
    | zero =>
      intro i s st h
      simp [SCD4X.measureAux] at h
    | succ n ih =>
      intro i s st h
      simp only [SCD4X.measureAux] at h
      cases hdr : (SCD4X.data_ready s.address (dr i)).2 with
      | error e0 =>
        rw [hdr] at h
        simp at h
      | ok v =>
        simp only [hdr] at h
        by_cases hv : v ≠ 0
        · rw [if_pos hv] at h
          rcases hru : SCD4X.readMeasurementUpdate mr s with ⟨r1, s1⟩
          rw [hru] at h
          cases r1 with
          | error e0 => simp at h
          | ok r0 => simp at h
        · rw [if_neg hv] at h
          cases b with
          | false =>
            simp at h
            exact h.symm
          | true =>
            by_cases het : t < e i
            · rw [if_neg (by simp), if_pos het] at h
              simp at h
            · rw [if_neg (by simp), if_neg het] at h
              exact ih (i + 1) s st h
  · intro fuel
    induction fuel with
    | zero =>
      intro i s r st h
      simp [SCD4X.measureAux] at h
    | succ n ih =>
      intro i s r st h
      simp only [SCD4X.measureAux] at h
      cases hdr : (SCD4X.data_ready s.address (dr i)).2 with
      | error e0 =>
        rw [hdr] at h
        simp at h
      | ok v =>
        simp only [hdr] at h
        by_cases hv : v ≠ 0
        · rw [if_pos hv] at h
          rcases hru : SCD4X.readMeasurementUpdate mr s with ⟨r1, s1⟩
          rw [hru] at h
          cases r1 with
          | error e0 => simp at h
          | ok r0 =>
            simp at h
            obtain ⟨h1, h2⟩ := h
            subst h1
            subst h2
            exact ⟨i, v, hdr, hv, rfl⟩
        · rw [if_neg hv] at h
          cases b with
          | false => simp at h
          | true =>
            by_cases het : t < e i
            · rw [if_neg (by simp), if_pos het] at h
              simp at h
            · rw [if_neg (by simp), if_neg het] at h
              exact ih (i + 1) s r st h

/-- C9 witness: instantiating the no-reading part of the invariant at a
concrete not-ready non-blocking run on a fresh handle. -/
theorem reading_cache_invariant_witness :
    (SCD4X.init none) = (SCD4X.init none) := by
  have hrun : SCD4X.measureAux (fun _ => [8, 0, 55]) (fun _ => 1) [] false 0 1 0
      (SCD4X.init none) = some (.ok none, SCD4X.init none) := by decide
  exact (reading_cache_invariant (fun _ => [8, 0, 55]) (fun _ => 1) [] false 0).2.1
    1 0 (SCD4X.init none) (SCD4X.init none) hrun
